import Mathlib

/-!
Verification of the darkroom image-manipulation core.

This file gives a shallow embedding of the repository's three source files:

* `src/unnamed/part_000`  — Go package `service`: the request dispatcher
  (`manipulator.Process`), the parameter normalizer (`CleanInt`,
  `GetCropPoint`) and the `ProcessSpec` data model.
* `src/unnamed/part_001`  — Go package `native` (version A): `BildProcessor`
  with `Crop`, `Resize`, `Watermark`, `GrayScale`, the local `grayScale`
  pixel loop, and the shared `decode`/`encode` helpers.
* `src/pkg/processor/native/processor.go` — Go package `native` (version B):
  the same adapter with per-transform duration metrics added.

Modelling conventions:

* Go byte slices are `List Nat`; a nil slice is `[]`.
* Go `int` values coming out of `strconv.Atoi` are `Int` with explicit
  clamping to the signed 64-bit range, mirroring `ParseInt`'s documented
  range behaviour.  `uint8` casts are `% 256`.
* Go maps with string keys are total functions `String → String`; a missing
  key reads as `""`, exactly as in Go.
* The external image library (bild / image stdlib codecs) is a `Codec`
  record of abstract operations; the repository code under `src/` is
  translated concretely on top of it.  The repository's geometry helpers
  `getResizeWidthAndHeightForCrop`, `getResizeWidthAndHeight` and
  `getStartingPointForCrop` are referenced by `src/` but defined in a file
  outside `src/`, so they are abstracted as `Codec` fields as well; no claim
  below depends on their values.
* `float64` arithmetic inside `Watermark` is idealized as exact rational
  arithmetic (`ℚ`); the quantities involved (an integer divided by 2, and
  that times a ratio of small positive integers) are represented exactly up
  to the final truncation, which is modelled by `Int.floor` (all values are
  nonnegative, so Go's truncation toward zero agrees with flooring).
* Metric recording (`metrics.Update`) is observed as a trace: each adapter
  operation returns, besides its result, the list of metric keys it records,
  in order.  Durations themselves are real-time quantities and are not
  modelled; only which keys get recorded, as the claims require.
* Each dispatcher run likewise returns the list of processor calls it makes
  (`Step` trace), so that "step X is / is not invoked" claims are statable.
-/

/-- Go byte slices, as lists of bytes (values mod 256 are never needed by the
claims, so plain `Nat` entries are used). A nil slice is the empty list. -/
abbrev Bytes := List Nat

/-- Errors surfaced by the adapter operations. Go errors are opaque values;
the claims only need to distinguish where an error came from. -/
inductive Err where
  | decodeFail
  | encodeFail
  | cropFail
  | resizeFail
  | grayScaleFail
  deriving DecidableEq, Repr

/-- One RGBA pixel. Go stores channels as `uint8`; the embedding keeps `Nat`
fields and applies `% 256` exactly where Go's types force a `uint8` cast. -/
structure Pixel where
  r : Nat
  g : Nat
  b : Nat
  a : Nat
  deriving DecidableEq, Repr

/-- The zero value of `color.RGBA`, returned by Go images outside bounds. -/
def Pixel.zero : Pixel := ⟨0, 0, 0, 0⟩

/-- The dynamic type of a decoded Go `image.Image`.  `image/png` produces
`*image.NRGBA`, `*image.RGBA`, `*image.Gray` or `*image.Paletted`;
`image/jpeg` produces `*image.YCbCr`, `*image.Gray` or `*image.CMYK`. -/
inductive GoImageKind where
  | nrgba
  | rgba
  | gray
  | cmyk
  | paletted
  | ycbcr
  | nycbcra
  deriving DecidableEq, Repr

/-- Which decoded image types implement Go's `draw.Image` (that is, have a
`Set` method).  In the Go standard library `*image.RGBA`, `*image.NRGBA`,
`*image.Gray`, `*image.CMYK` and `*image.Paletted` all have `Set`;
`*image.YCbCr` and `*image.NYCbCrA` are read-only and do not, so a type
assertion `img.(draw.Image)` on them panics. -/
def implementsDrawImage : GoImageKind → Bool
  | .ycbcr => false
  | .nycbcra => false
  | _ => true

/-- A decoded image: bounds `(0,0)-(w,h)`, a total pixel function (Go images
return the zero color outside bounds), and the dynamic type produced by the
decoder. -/
structure Img where
  w : Nat
  h : Nat
  pix : Nat → Nat → Pixel
  kind : GoImageKind

/-- The zero value `&image.RGBA{}`: empty bounds, all pixels zero. -/
def emptyImg : Img := ⟨0, 0, fun _ _ => Pixel.zero, .rgba⟩

/-- Modelled from the spec: `isOpaque` is called by `BildProcessor.encode`
(src/unnamed/part_001 line 141 and processor.go line 127) but its definition
lives outside `src/`.  Spec §3 "Opacity": true iff every pixel's alpha
channel equals fully opaque. -/
def isOpaqueImg (img : Img) : Bool :=
  decide (∀ x < img.w, ∀ y < img.h, (img.pix x y).a = 255)

namespace processor

/-- Modelled from the spec: the `processor.CropPoint` enumeration is
referenced by `GetCropPoint` in src/unnamed/part_000 but declared outside
`src/`.  Spec §3: "CropPoint: enumerated anchor — Center (default), Top,
Bottom, Left, Right, TopLeft, TopRight, BottomLeft, BottomRight." -/
inductive CropPoint where
  | CropCenter
  | CropTop
  | CropBottom
  | CropLeft
  | CropRight
  | CropTopLeft
  | CropTopRight
  | CropBottomLeft
  | CropBottomRight
  deriving DecidableEq, Repr

/-- The `processor.Processor` Go interface consumed by the dispatcher: each
method returns a `([]byte, error)` pair.  The dispatcher assigns both
components (`data, err = ...`), so the pair is modelled as given, with no
constraint tying the byte result to the error. -/
structure Processor where
  Crop : Bytes → Int → Int → CropPoint → Bytes × Option Err
  Resize : Bytes → Int → Int → Bytes × Option Err
  GrayScale : Bytes → Bytes × Option Err
  Watermark : Bytes → Bytes → Nat → Bytes × Option Err

end processor

namespace service

/-- Go constant `width = "w"` (src/unnamed/part_000 line 11). -/
def width : String := "w"

/-- Go constant `height = "h"`. -/
def height : String := "h"

/-- Go constant `fit = "fit"`. -/
def fit : String := "fit"

/-- Go constant `crop = "crop"`. -/
def crop : String := "crop"

/-- Go constant `mono = "mono"`. -/
def mono : String := "mono"

/-- Go constant `blackHexCode = "000000"`. -/
def blackHexCode : String := "000000"

/-- Go constant `cropDurationKey`. -/
def cropDurationKey : String := "cropDuration"

/-- Go constant `resizeDurationKey`. -/
def resizeDurationKey : String := "resizeDuration"

/-- Go constant `grayScaleDurationKey`. -/
def grayScaleDurationKey : String := "grayScaleDuration"

/-- Type `ProcessSpec` (src/unnamed/part_000 lines 34-41).  `Params` is a Go
`map[string]string`; reading an absent key yields `""`, so the map is
embedded as a total function. -/
structure ProcessSpec where
  Scope : String
  ImageData : Bytes
  Params : String → String

/-- One byte-comparison digit test, as Go's `'0' <= c && c <= '9'` used by
`strconv` when scanning decimal digits. -/
def isDigitCh (c : Char) : Bool :=
  48 ≤ c.toNat && c.toNat ≤ 57

/-- Numeric value of a decimal digit character. -/
def charToDigit (c : Char) : Nat := c.toNat - 48

/-- Left-to-right accumulation of decimal digits, as `strconv`'s scan loop. -/
def parseDigits (cs : List Char) : Nat :=
  cs.foldl (fun a c => 10 * a + charToDigit c) 0

/-- All characters are decimal digits. -/
def allDigits (cs : List Char) : Bool := cs.all isDigitCh

/-- Maximum value of Go's 64-bit `int`. -/
def maxInt64 : Int := 9223372036854775807

/-- Minimum value of Go's 64-bit `int`. -/
def minInt64 : Int := -9223372036854775808

/-- Range clamping performed by `strconv.ParseInt` with `bitSize` 64: a
syntactically valid number outside the signed 64-bit range is returned as
`MaxInt64` (positive) or `MinInt64` (negative) together with `ErrRange`. -/
def clampInt64 (v : Int) : Int :=
  if v > maxInt64 then maxInt64
  else if v < minInt64 then minInt64
  else v

/-- Model of Go's `strconv.Atoi` value (the error is dropped by `CleanInt`
with `val, _ := strconv.Atoi(input)`, so only the returned value matters):
an optional sign followed by one or more decimal digits parses to the
signed value clamped to the 64-bit range; any other string yields 0. -/
def atoi (s : String) : Int :=
  match s.data with
  | [] => 0
  | c :: rest =>
    if c = '-' then
      if rest ≠ [] ∧ allDigits rest then clampInt64 (-(parseDigits rest : Int)) else 0
    else if c = '+' then
      if rest ≠ [] ∧ allDigits rest then clampInt64 ((parseDigits rest : Int)) else 0
    else
      if allDigits (c :: rest) then clampInt64 ((parseDigits (c :: rest) : Int)) else 0

/-- Function `CleanInt` (src/unnamed/part_000 lines 73-79): drop the `Atoi` error,
return 0 for values ≤ 0, otherwise the value mod 10000. The `%` is on a
positive value, where Go's truncated `%` and `Int.emod` agree. -/
def CleanInt (input : String) : Int :=
  let val := atoi input
  if val ≤ 0 then 0
  else val % 10000

/-- Function `GetCropPoint` (src/unnamed/part_000 lines 82-103): Go `switch` on the
input string, written as the equivalent first-match conditional chain. -/
def GetCropPoint (input : String) : processor.CropPoint :=
  if input = "top" then .CropTop
  else if input = "top,left" then .CropTopLeft
  else if input = "top,right" then .CropTopRight
  else if input = "left" then .CropLeft
  else if input = "right" then .CropRight
  else if input = "bottom" then .CropBottom
  else if input = "bottom,left" then .CropBottomLeft
  else if input = "bottom,right" then .CropBottomRight
  else .CropCenter

/-- Observation of which processor methods a `Process` run invokes, in
order.  This trace is bookkeeping added by the embedding (the Go code has no
such value); each constructor is appended exactly where `Process` calls the
corresponding method. -/
inductive Step where
  | crop
  | resize
  | grayscale
  deriving DecidableEq, Repr

/-- Method `manipulator.Process` (src/unnamed/part_000 lines 45-70).  Faithful
translation of the control flow: `data` and `err` are reassigned by each
processor call (so a later call overwrites an earlier error), and the final
`(data, err)` pair is returned.  The `Step` list records which methods were
invoked. -/
def Process (m : processor.Processor) (spec : ProcessSpec) :
    (Bytes × Option Err) × List Step :=
  let params := spec.Params
  let first :
      (Bytes × Option Err) × List Step :=
    if params fit = crop then
      (m.Crop spec.ImageData (CleanInt (params width)) (CleanInt (params height))
        (GetCropPoint (params crop)), [Step.crop])
    else if (params fit).length = 0 ∧
        (CleanInt (params width) ≠ 0 ∨ CleanInt (params height) ≠ 0) then
      (m.Resize spec.ImageData (CleanInt (params width)) (CleanInt (params height)),
        [Step.resize])
    else
      ((spec.ImageData, none), [])
  if params mono = blackHexCode then
    (m.GrayScale first.1.1, first.2 ++ [Step.grayscale])
  else
    first

end service

/-- The external image-processing capability consumed by both adapter
versions: the stdlib codecs (`image.Decode`, `png.Encoder.Encode`,
`jpeg.Encode`), the bild primitives (`transform.Resize`, `clone.AsRGBA` plus
`SubImage`, `effect.Grayscale`, `draw.DrawMask` over-compositing), and the
repository's geometry helpers which are referenced by `src/` but defined in
a file outside it.  All are abstract: the claims below constrain only the
code translated from `src/`. -/
structure Codec where
  decode : Bytes → Option (Img × String)
  encodePNGBest : Img → Bytes × Option Err
  encodeJPEGDefault : Img → Bytes × Option Err
  resize : Img → Int → Int → Img
  cropRegion : Img → Int → Int → Int → Int → Img
  effectGrayscale : Img → Img
  drawComposite : Img → Img → Int → Int → Nat → Img
  getResizeWidthAndHeightForCrop : Int → Int → Nat → Nat → Int × Int
  getResizeWidthAndHeight : Int → Int → Nat → Nat → Int × Int
  getStartingPointForCrop : Int → Int → Int → Int → processor.CropPoint → Int × Int

/-- Go constant `pngType = "png"` (both native files). -/
def pngType : String := "png"

/-- Go constant `jpgType = "jpeg"`. -/
def jpgType : String := "jpeg"

/-- Go constant `decodeDurationKey`. -/
def decodeDurationKey : String := "decodeDuration"

/-- Go constant `encodeDurationKey`. -/
def encodeDurationKey : String := "encodeDuration"

/-- Go constant `watermarkDurationKey`. -/
def watermarkDurationKey : String := "watermarkDuration"

/-- Go constant `cropDurationKey` of package native (processor.go). -/
def cropDurationKeyN : String := "cropDuration"

/-- Go constant `resizeDurationKey` of package native (processor.go). -/
def resizeDurationKeyN : String := "resizeDuration"

/-- Go constant `grayScaleDurationKey` of package native (processor.go). -/
def grayScaleDurationKeyN : String := "grayScaleDuration"

/-- Result of a Go adapter call: a `([]byte, error)` return, or a runtime
panic (which returns nothing at all). -/
inductive GoResult where
  | ret (bytes : Bytes) (err : Option Err)
  | panicked
  deriving DecidableEq, Repr

/-- Helper `BildProcessor.decode` (part_001 lines 130-137, processor.go 116-123):
run `image.Decode`; the decode duration metric is recorded only when
decoding succeeds. -/
def decodeRun (c : Codec) (data : Bytes) : Option (Img × String) × List String :=
  match c.decode data with
  | none => (none, [])
  | some r => (some r, [decodeDurationKey])

/-- Helper `BildProcessor.encode` (part_001 lines 139-154, processor.go 125-140):
a PNG-tagged fully-opaque image is re-tagged as JPEG; PNG then encodes with
best compression, everything else as JPEG with default quality (`nil`
options).  The encode duration metric is recorded unconditionally. -/
def encodeRun (c : Codec) (img : Img) (format : String) :
    (Bytes × Option Err) × List String :=
  let format := if format = pngType ∧ isOpaqueImg img then jpgType else format
  let res := if format = pngType then c.encodePNGBest img else c.encodeJPEGDefault img
  (res, [encodeDurationKey])

/-- Per-channel `uint8` view of a pixel, as stored by `clone.AsRGBA`. -/
def asU8 (p : Pixel) : Pixel := ⟨p.r % 256, p.g % 256, p.b % 256, p.a % 256⟩

/-- Luminance of an 8-bit RGB triple, exactly as Go's
`color.GrayModel.Convert` computes it: channels are widened to 16 bits by
`* 0x101`, combined with the fixed weights, and shifted down 24 bits. -/
def grayY (r g b : Nat) : Nat :=
  (19595 * (r * 257) + 38470 * (g * 257) + 7471 * (b * 257) + 32768) / 16777216

/-- One iteration of the `grayScale` pixel loop (part_001 lines 121-123):
read the RGBA pixel, convert to gray, keep the alpha.  The `% 256` is the
`uint8(y)` conversion inside `color.Gray`. -/
def grayPix (p : Pixel) : Pixel :=
  let q := asU8 p
  let g := grayY q.r q.g q.b % 256
  ⟨g, g, g, q.a⟩

/-- Function `grayScale` (src/unnamed/part_001 lines 111-128): clone to RGBA, return
`&image.RGBA{}` for empty bounds, otherwise write the gray conversion of
every in-bounds pixel into a fresh RGBA image (the `parallel.Line` row
partitioning computes exactly this per-pixel map; outside bounds a fresh
`image.RGBA` reads as the zero color). -/
def grayScale (img : Img) : Img :=
  if img.w = 0 ∨ img.h = 0 then emptyImg
  else
    { w := img.w
      h := img.h
      pix := fun x y =>
        if x < img.w ∧ y < img.h then grayPix (img.pix x y) else Pixel.zero
      kind := .rgba }

/-- Method `BildProcessor.Watermark` (part_001 lines 68-98 and processor.go lines
71-101; the two files are textually identical here): decode both inputs,
resize the overlay to half the base width preserving the overlay's
height/width ratio (float64 arithmetic idealized as `ℚ`, truncation as
`Int.floor` on nonnegative values), compute the centered offset with Go's
truncated integer division, then `draw.DrawMask` through the unchecked type
assertion `baseImg.(draw.Image)` — which panics when the decoded base does
not implement `draw.Image` — and encode.  The watermark duration metric is
recorded after compositing, the decode metrics inside each `decode` call. -/
def Watermark (c : Codec) (base overlay : Bytes) (opacity : Nat) :
    GoResult × List String :=
  match decodeRun c base with
  | (none, tr) => (.ret [] (some .decodeFail), tr)
  | (some (baseImg, f), tr1) =>
    match decodeRun c overlay with
    | (none, tr) => (.ret [] (some .decodeFail), tr1 ++ tr)
    | (some (overlayImg, _), tr2) =>
      let r : ℚ := (overlayImg.h : ℚ) / (overlayImg.w : ℚ)
      let dWidth : ℚ := (baseImg.w : ℚ) / 2
      let overlayImg2 := c.resize overlayImg ⌊dWidth⌋ ⌊dWidth * r⌋
      let x : Int := Int.tdiv ((baseImg.w : Int) - (overlayImg2.w : Int)) 2
      let y : Int := Int.tdiv ((baseImg.h : Int) - (overlayImg2.h : Int)) 2
      if implementsDrawImage baseImg.kind then
        let composited := c.drawComposite baseImg overlayImg2 x y opacity
        match encodeRun c composited f with
        | (res, tr3) =>
          (.ret res.1 res.2, tr1 ++ tr2 ++ [watermarkDurationKey] ++ tr3)
      else
        (.panicked, tr1 ++ tr2)

namespace nativeA

/-- Method `BildProcessor.Crop` of src/unnamed/part_001 (lines 32-46): decode,
cover-resize, sub-image crop, encode.  This version records no
transform-level metric: only the decode and encode helpers record. -/
def Crop (c : Codec) (input : Bytes) (width height : Int)
    (point : processor.CropPoint) : GoResult × List String :=
  match decodeRun c input with
  | (none, tr) => (.ret [] (some .decodeFail), tr)
  | (some (img, f), tr1) =>
    let wh := c.getResizeWidthAndHeightForCrop width height img.w img.h
    let img2 := c.resize img wh.1 wh.2
    let xy := c.getStartingPointForCrop wh.1 wh.2 width height point
    let img3 := c.cropRegion img2 xy.1 xy.2 width height
    match encodeRun c img3 f with
    | (res, tr2) => (.ret res.1 res.2, tr1 ++ tr2)

/-- Method `BildProcessor.Resize` of src/unnamed/part_001 (lines 49-64): decode,
contain-resize only when the computed dimensions differ from the original,
encode.  No transform-level metric in this version. -/
def Resize (c : Codec) (input : Bytes) (width height : Int) :
    GoResult × List String :=
  match decodeRun c input with
  | (none, tr) => (.ret [] (some .decodeFail), tr)
  | (some (img, f), tr1) =>
    let wh := c.getResizeWidthAndHeight width height img.w img.h
    let img2 :=
      if wh.1 ≠ (img.w : Int) ∨ wh.2 ≠ (img.h : Int) then c.resize img wh.1 wh.2
      else img
    match encodeRun c img2 f with
    | (res, tr2) => (.ret res.1 res.2, tr1 ++ tr2)

/-- Method `BildProcessor.GrayScale` of src/unnamed/part_001 (lines 101-109):
decode, apply the local `grayScale`, encode.  No transform-level metric. -/
def GrayScale (c : Codec) (input : Bytes) : GoResult × List String :=
  match decodeRun c input with
  | (none, tr) => (.ret [] (some .decodeFail), tr)
  | (some (img, f), tr1) =>
    let img2 := grayScale img
    match encodeRun c img2 f with
    | (res, tr2) => (.ret res.1 res.2, tr1 ++ tr2)

end nativeA

namespace nativeB

/-- Method `BildProcessor.Crop` of src/pkg/processor/native/processor.go (lines
34-50): as version A, but the resize-and-crop transform is timed and
recorded under `cropDuration`. -/
def Crop (c : Codec) (input : Bytes) (width height : Int)
    (point : processor.CropPoint) : GoResult × List String :=
  match decodeRun c input with
  | (none, tr) => (.ret [] (some .decodeFail), tr)
  | (some (img, f), tr1) =>
    let wh := c.getResizeWidthAndHeightForCrop width height img.w img.h
    let img2 := c.resize img wh.1 wh.2
    let xy := c.getStartingPointForCrop wh.1 wh.2 width height point
    let img3 := c.cropRegion img2 xy.1 xy.2 width height
    match encodeRun c img3 f with
    | (res, tr2) => (.ret res.1 res.2, tr1 ++ [cropDurationKeyN] ++ tr2)

/-- Method `BildProcessor.Resize` of processor.go (lines 52-69): the transform
metric `resizeDuration` is recorded inside the dimension-change branch, so a
no-op resize records no transform metric. -/
def Resize (c : Codec) (input : Bytes) (width height : Int) :
    GoResult × List String :=
  match decodeRun c input with
  | (none, tr) => (.ret [] (some .decodeFail), tr)
  | (some (img, f), tr1) =>
    let wh := c.getResizeWidthAndHeight width height img.w img.h
    let step :=
      if wh.1 ≠ (img.w : Int) ∨ wh.2 ≠ (img.h : Int) then
        (c.resize img wh.1 wh.2, [resizeDurationKeyN])
      else (img, [])
    match encodeRun c step.1 f with
    | (res, tr2) => (.ret res.1 res.2, tr1 ++ step.2 ++ tr2)

/-- Method `BildProcessor.GrayScale` of processor.go (lines 103-114): uses bild's
`effect.Grayscale` and records `grayScaleDuration` around it. -/
def GrayScale (c : Codec) (input : Bytes) : GoResult × List String :=
  match decodeRun c input with
  | (none, tr) => (.ret [] (some .decodeFail), tr)
  | (some (img, f), tr1) =>
    let img2 := c.effectGrayscale img
    match encodeRun c img2 f with
    | (res, tr2) => (.ret res.1 res.2, tr1 ++ [grayScaleDurationKeyN] ++ tr2)

end nativeB

/-- Concrete external-capability instance used by witness theorems: decoding
recognizes two fixed payloads, resizing returns an image of exactly the
requested dimensions, and the remaining primitives are simple total
functions. -/
def cW : Codec where
  decode := fun b =>
    if b = [1] then some (⟨4, 4, fun _ _ => ⟨10, 20, 30, 255⟩, .nrgba⟩, pngType)
    else if b = [2] then some (⟨6, 4, fun _ _ => ⟨10, 20, 30, 255⟩, .nrgba⟩, jpgType)
    else none
  encodePNGBest := fun _ => ([80], none)
  encodeJPEGDefault := fun _ => ([74], none)
  resize := fun img w h => ⟨w.toNat, h.toNat, img.pix, img.kind⟩
  cropRegion := fun img _ _ _ _ => img
  effectGrayscale := fun img => img
  drawComposite := fun base _ _ _ _ => base
  getResizeWidthAndHeightForCrop := fun w h _ _ => (w, h)
  getResizeWidthAndHeight := fun w h _ _ => (w, h)
  getStartingPointForCrop := fun _ _ _ _ _ => (0, 0)

/-- Helper: the luminance formula is the identity on gray 8-bit pixels. -/
theorem grayY_id (g : Nat) (hg : g < 256) : grayY g g g = g := by
  unfold grayY
  have h : 19595 * (g * 257) + 38470 * (g * 257) + 7471 * (g * 257) + 32768
      = 16777216 * g + (65536 * g + 32768) := by ring
  rw [h, Nat.mul_add_div (by norm_num)]
  have h2 : (65536 * g + 32768) / 16777216 = 0 := Nat.div_eq_of_lt (by omega)
  omega

/-- Helper: one gray conversion step is idempotent on pixels. -/
theorem grayPix_idem (p : Pixel) : grayPix (grayPix p) = grayPix p := by
  have hg1 : grayY (p.r % 256) (p.g % 256) (p.b % 256) % 256 < 256 := by omega
  have e1 : grayY (p.r % 256) (p.g % 256) (p.b % 256) % 256 % 256
      = grayY (p.r % 256) (p.g % 256) (p.b % 256) % 256 := by omega
  simp only [grayPix, asU8, e1]
  rw [grayY_id _ hg1]
  simp only [Pixel.mk.injEq]
  omega

/-- Helper: images with equal fields and equal pixel functions are equal. -/
theorem img_mk_eq_of_pix_eq (w h : Nat) (k : GoImageKind)
    (f g : Nat → Nat → Pixel) (hfg : f = g) :
    Img.mk w h f k = Img.mk w h g k := by rw [hfg]

/-- Helper: on empty bounds `grayScale` returns the zero RGBA image. -/
theorem grayScale_eq_empty (img : Img) (h : img.w = 0 ∨ img.h = 0) :
    grayScale img = emptyImg := by
  unfold grayScale
  exact if_pos h

/-- C10: for every image whose pixel bounds are empty, the grayscale
conversion returns an empty RGBA image rather than failing; `grayScale` is
total over all decodable inputs, including zero-area images (totality is
inherent in the Lean embedding: `grayScale` is a total function). -/
theorem grayScale_total_on_empty (img : Img) (h : img.w = 0 ∨ img.h = 0) :
    grayScale img = emptyImg :=
  grayScale_eq_empty img h

/-- Witness for C10 at a concrete zero-width image. -/
theorem grayScale_total_on_empty_witness :
    grayScale ⟨0, 3, fun _ _ => ⟨7, 7, 7, 0⟩, .ycbcr⟩ = emptyImg :=
  grayScale_total_on_empty ⟨0, 3, fun _ _ => ⟨7, 7, 7, 0⟩, .ycbcr⟩ (Or.inl rfl)

/-- C7: applying `grayScale` twice yields output pixel-identical to applying
it once (stated at the decoded-image level, where the pixels live; the
byte-level operation wraps this map in the external decode/encode codecs). -/
theorem grayScale_idempotent (img : Img) :
    grayScale (grayScale img) = grayScale img := by
  by_cases h : img.w = 0 ∨ img.h = 0
  · rw [grayScale_eq_empty img h]
    exact grayScale_eq_empty emptyImg (Or.inl rfl)
  · unfold grayScale
    simp only [if_neg h]
    apply img_mk_eq_of_pix_eq
    funext x y
    by_cases hxy : x < img.w ∧ y < img.h
    · simp [hxy, grayPix_idem]
    · simp [hxy]

/-- C5: `GetCropPoint` returns the matching anchor for exactly the eight
table strings and Center for everything else (including the empty string,
"TOP" and "center"); it is a total function with no error path. -/
theorem getCropPoint_table :
    (∀ s : String,
      s ∉ (["top", "top,left", "top,right", "left", "right", "bottom",
        "bottom,left", "bottom,right"] : List String) →
      service.GetCropPoint s = processor.CropPoint.CropCenter)
    ∧ service.GetCropPoint ("top") = processor.CropPoint.CropTop
    ∧ service.GetCropPoint ("top,left") = processor.CropPoint.CropTopLeft
    ∧ service.GetCropPoint ("top,right") = processor.CropPoint.CropTopRight
    ∧ service.GetCropPoint ("left") = processor.CropPoint.CropLeft
    ∧ service.GetCropPoint ("right") = processor.CropPoint.CropRight
    ∧ service.GetCropPoint ("bottom") = processor.CropPoint.CropBottom
    ∧ service.GetCropPoint ("bottom,left") = processor.CropPoint.CropBottomLeft
    ∧ service.GetCropPoint ("bottom,right") = processor.CropPoint.CropBottomRight
    ∧ service.GetCropPoint ("") = processor.CropPoint.CropCenter
    ∧ service.GetCropPoint ("TOP") = processor.CropPoint.CropCenter
    ∧ service.GetCropPoint ("center") = processor.CropPoint.CropCenter := by
  refine ⟨?_, by decide, by decide, by decide, by decide, by decide, by decide,
    by decide, by decide, by decide, by decide, by decide⟩
  intro s hs
  simp only [List.mem_cons, List.not_mem_nil, or_false, not_or] at hs
  obtain ⟨h1, h2, h3, h4, h5, h6, h7, h8⟩ := hs
  simp [service.GetCropPoint, h1, h2, h3, h4, h5, h6, h7, h8]

/-- Witness for C5's universal fallback conjunct at a concrete non-table
string. -/
theorem getCropPoint_table_witness :
    service.GetCropPoint ("diagonal") = processor.CropPoint.CropCenter :=
  getCropPoint_table.1 ("diagonal") (by decide)

/-- C6: at encode time a PNG-tagged fully-opaque image goes to the JPEG
encoder with default quality; a PNG-tagged non-opaque image goes to the PNG
encoder with best compression; any non-PNG tag goes to the JPEG encoder. -/
theorem encode_format_selection (c : Codec) (img : Img) (f : String) :
    (f = pngType → isOpaqueImg img = true →
      encodeRun c img f = (c.encodeJPEGDefault img, [encodeDurationKey]))
    ∧ (f = pngType → isOpaqueImg img = false →
      encodeRun c img f = (c.encodePNGBest img, [encodeDurationKey]))
    ∧ (f ≠ pngType →
      encodeRun c img f = (c.encodeJPEGDefault img, [encodeDurationKey])) := by
  refine ⟨?_, ?_, ?_⟩
  · intro h1 h2
    subst h1
    simp [encodeRun, h2, pngType, jpgType]
  · intro h1 h2
    subst h1
    simp [encodeRun, h2]
  · intro h1
    simp [encodeRun, h1]

/-- Witness for C6 at a concrete non-PNG format tag and also at a concrete
opaque PNG. -/
theorem encode_format_selection_witness :
    encodeRun cW ⟨1, 1, fun _ _ => ⟨5, 5, 5, 255⟩, .nrgba⟩ ("png")
      = (cW.encodeJPEGDefault ⟨1, 1, fun _ _ => ⟨5, 5, 5, 255⟩, .nrgba⟩,
        [encodeDurationKey]) :=
  (encode_format_selection cW ⟨1, 1, fun _ _ => ⟨5, 5, 5, 255⟩, .nrgba⟩ ("png")).1
    rfl (by decide)

/-- Concrete processor used by dispatcher witnesses: every method succeeds. -/
def pW : processor.Processor where
  Crop := fun _ _ _ _ => ([3], none)
  Resize := fun _ _ _ => ([4], none)
  GrayScale := fun b => (b ++ [5], none)
  Watermark := fun _ _ _ => ([6], none)

/-- Concrete spec with no parameters set: every key reads as the empty
string, as for an absent key of a Go map. -/
def specPass : service.ProcessSpec :=
  { Scope := "s", ImageData := [1, 2], Params := fun _ => "" }

/-- Concrete processor whose Crop fails and whose GrayScale fails exactly on
nil input (as the native processors do, since decoding nil bytes fails). -/
def pCE : processor.Processor where
  Crop := fun _ _ _ _ => ([], some Err.cropFail)
  Resize := fun _ _ _ => ([], some Err.resizeFail)
  GrayScale := fun b => if b.isEmpty then ([], some Err.decodeFail) else (b, none)
  Watermark := fun _ _ _ => ([], none)

/-- Concrete spec requesting both a crop and the mono/grayscale step. -/
def specCE : service.ProcessSpec :=
  { Scope := "s", ImageData := [1, 2, 3],
    Params := fun k =>
      if k = "fit" then "crop" else if k = "mono" then "000000" else "" }

/-- C4: when `fit == "crop"` the Resize step is never invoked; when `fit` is
empty and both cleaned dimensions are 0, neither Crop nor Resize run and the
image bytes pass through unchanged (the mono/GrayScale step may still
apply, in which case GrayScale receives the original bytes). -/
theorem process_dispatch_exclusivity (m : processor.Processor)
    (spec : service.ProcessSpec) :
    (spec.Params service.fit = service.crop →
      service.Step.resize ∉ (service.Process m spec).2)
    ∧ ((spec.Params service.fit).length = 0 →
      service.CleanInt (spec.Params service.width) = 0 →
      service.CleanInt (spec.Params service.height) = 0 →
      service.Step.crop ∉ (service.Process m spec).2
      ∧ service.Step.resize ∉ (service.Process m spec).2
      ∧ (spec.Params service.mono ≠ service.blackHexCode →
          service.Process m spec = ((spec.ImageData, none), []))
      ∧ (spec.Params service.mono = service.blackHexCode →
          service.Process m spec
            = (m.GrayScale spec.ImageData, [service.Step.grayscale]))) := by
  constructor
  · intro hfit
    unfold service.Process
    simp only [if_pos hfit]
    by_cases hm : spec.Params service.mono = service.blackHexCode
    · simp only [if_pos hm]
      simp
    · simp only [if_neg hm]
      simp
  · intro hlen hw hh
    have hne : spec.Params service.fit ≠ service.crop := by
      intro he
      rw [he] at hlen
      exact absurd hlen (by decide)
    have hcond : ¬ ((spec.Params service.fit).length = 0 ∧
        (service.CleanInt (spec.Params service.width) ≠ 0 ∨
          service.CleanInt (spec.Params service.height) ≠ 0)) := by
      intro hc
      rcases hc.2 with h | h
      · exact h hw
      · exact h hh
    by_cases hm : spec.Params service.mono = service.blackHexCode
    · simp only [service.Process, if_neg hne, if_neg hcond, if_pos hm]
      refine ⟨by simp, by simp, ?_, ?_⟩
      · first
        | trivial
        | exact fun _ => trivial
        | exact fun hmn => absurd hm hmn
      · first
        | trivial
        | exact fun _ => trivial
        | exact fun _ => rfl
    · simp only [service.Process, if_neg hne, if_neg hcond, if_neg hm]
      refine ⟨by simp, by simp, ?_, ?_⟩
      · first
        | trivial
        | exact fun _ => trivial
        | exact fun _ => rfl
      · first
        | trivial
        | exact fun _ => trivial
        | exact fun hmm => absurd hmm hm

/-- Witness for C4 at a concrete processor and an all-empty parameter bag:
the input bytes pass through unchanged with no step invoked. -/
theorem process_dispatch_exclusivity_witness :
    service.Process pW specPass = ((([1, 2] : Bytes), (none : Option Err)),
      ([] : List service.Step)) :=
  ((process_dispatch_exclusivity pW specPass).2 (by decide) (by decide)
    (by decide)).2.2.1 (by decide)

/-- C1 counterexample: with `fit=="crop"` and `mono=="000000"`, a failing
Crop does not abort the pipeline — GrayScale still executes (on the nil
bytes Crop returned) and its error replaces Crop's error, so `Process`
neither returns the Crop error nor stops after the failing step. -/
theorem process_error_not_aborting :
    service.Process pCE specCE
      = ((([] : Bytes), some Err.decodeFail),
        [service.Step.crop, service.Step.grayscale])
    ∧ Err.decodeFail ≠ Err.cropFail := by
  exact ⟨rfl, by decide⟩

/-- C1 amended: when a transform step fails, `Process` does not invoke any
further Crop/Resize step and returns that step's `(bytes, error)` pair
unchanged only if the mono/GrayScale step is not requested; when
`mono == "000000"`, GrayScale still executes on the failing step's returned
bytes and its result (bytes and error) replaces the earlier one. -/
theorem process_error_continuation (m : processor.Processor)
    (spec : service.ProcessSpec) (d : Bytes) (e : Err) :
    (spec.Params service.fit = service.crop →
      m.Crop spec.ImageData (service.CleanInt (spec.Params service.width))
        (service.CleanInt (spec.Params service.height))
        (service.GetCropPoint (spec.Params service.crop)) = (d, some e) →
      (spec.Params service.mono ≠ service.blackHexCode →
        service.Process m spec = ((d, some e), [service.Step.crop]))
      ∧ (spec.Params service.mono = service.blackHexCode →
        service.Process m spec
          = (m.GrayScale d, [service.Step.crop, service.Step.grayscale])))
    ∧ ((spec.Params service.fit).length = 0 →
      (service.CleanInt (spec.Params service.width) ≠ 0 ∨
        service.CleanInt (spec.Params service.height) ≠ 0) →
      m.Resize spec.ImageData (service.CleanInt (spec.Params service.width))
        (service.CleanInt (spec.Params service.height)) = (d, some e) →
      (spec.Params service.mono ≠ service.blackHexCode →
        service.Process m spec = ((d, some e), [service.Step.resize]))
      ∧ (spec.Params service.mono = service.blackHexCode →
        service.Process m spec
          = (m.GrayScale d, [service.Step.resize, service.Step.grayscale]))) := by
  constructor
  · intro hfit hcrop
    constructor
    · intro hm
      simp only [service.Process, if_pos hfit, if_neg hm, hcrop]
    · intro hm
      simp only [service.Process, if_pos hfit, if_pos hm, hcrop,
        List.singleton_append]
  · intro hlen hdims hresize
    have hne : spec.Params service.fit ≠ service.crop := by
      intro he
      rw [he] at hlen
      exact absurd hlen (by decide)
    have hcond : (spec.Params service.fit).length = 0 ∧
        (service.CleanInt (spec.Params service.width) ≠ 0 ∨
          service.CleanInt (spec.Params service.height) ≠ 0) := ⟨hlen, hdims⟩
    constructor
    · intro hm
      simp only [service.Process, if_neg hne, if_pos hcond, if_neg hm, hresize]
    · intro hm
      simp only [service.Process, if_neg hne, if_pos hcond, if_pos hm, hresize,
        List.singleton_append]

/-- Witness for C1's amended theorem at the concrete failing processor: the
GrayScale outcome replaces the Crop error. -/
theorem process_error_continuation_witness :
    service.Process pCE specCE
      = (pCE.GrayScale [], [service.Step.crop, service.Step.grayscale]) :=
  ((process_error_continuation pCE specCE [] Err.cropFail).1 rfl rfl).2 rfl

/-- C2 counterexample: in the src/unnamed/part_001 adapter, a successful
Crop records only the decode and encode durations — no transform-level
metric key at all, contradicting "the transform step itself records a
duration metric under a distinct key". -/
theorem metrics_missing_transform_key :
    (nativeA.Crop cW [1] 2 2 processor.CropPoint.CropCenter).2
      = [decodeDurationKey, encodeDurationKey]
    ∧ cropDurationKeyN ∉ (nativeA.Crop cW [1] 2 2 processor.CropPoint.CropCenter).2
    ∧ watermarkDurationKey ∉ (nativeA.Crop cW [1] 2 2 processor.CropPoint.CropCenter).2 := by
  refine ⟨rfl, ?_, ?_⟩ <;> decide

/-- C2 amended: in the processor.go adapter each operation records decode,
transform and encode durations under distinct keys (decode only when
decoding succeeds, and Resize's transform key only when an actual resize
happens); in the src/unnamed/part_001 adapter only Watermark records a
transform-level duration — its Crop, Resize and GrayScale record only the
decode and encode durations. -/
theorem metrics_instrumentation (c : Codec) :
    (∀ input w h pt img f, c.decode input = some (img, f) →
      (nativeB.Crop c input w h pt).2
        = [decodeDurationKey, cropDurationKeyN, encodeDurationKey])
    ∧ (∀ input w h img f, c.decode input = some (img, f) →
      ((c.getResizeWidthAndHeight w h img.w img.h).1 ≠ (img.w : Int) ∨
          (c.getResizeWidthAndHeight w h img.w img.h).2 ≠ (img.h : Int) →
        (nativeB.Resize c input w h).2
          = [decodeDurationKey, resizeDurationKeyN, encodeDurationKey])
      ∧ ((c.getResizeWidthAndHeight w h img.w img.h).1 = (img.w : Int) →
          (c.getResizeWidthAndHeight w h img.w img.h).2 = (img.h : Int) →
        (nativeB.Resize c input w h).2 = [decodeDurationKey, encodeDurationKey]))
    ∧ (∀ input img f, c.decode input = some (img, f) →
      (nativeB.GrayScale c input).2
        = [decodeDurationKey, grayScaleDurationKeyN, encodeDurationKey])
    ∧ (∀ base overlay op bi f oi f2, c.decode base = some (bi, f) →
      c.decode overlay = some (oi, f2) → implementsDrawImage bi.kind = true →
      (Watermark c base overlay op).2
        = [decodeDurationKey, decodeDurationKey, watermarkDurationKey,
          encodeDurationKey])
    ∧ (∀ input w h pt img f, c.decode input = some (img, f) →
      (nativeA.Crop c input w h pt).2 = [decodeDurationKey, encodeDurationKey])
    ∧ (∀ input w h img f, c.decode input = some (img, f) →
      (nativeA.Resize c input w h).2 = [decodeDurationKey, encodeDurationKey])
    ∧ (∀ input img f, c.decode input = some (img, f) →
      (nativeA.GrayScale c input).2 = [decodeDurationKey, encodeDurationKey]) := by
  refine ⟨?_, ?_, ?_, ?_, ?_, ?_, ?_⟩
  · intro input w h pt img f hdec
    simp only [nativeB.Crop, decodeRun, encodeRun, hdec]
    rfl
  · intro input w h img f hdec
    constructor
    · intro hchange
      simp only [nativeB.Resize, decodeRun, encodeRun, hdec, if_pos hchange]
      rfl
    · intro h1 h2
      have hnot : ¬ ((c.getResizeWidthAndHeight w h img.w img.h).1 ≠ (img.w : Int) ∨
          (c.getResizeWidthAndHeight w h img.w img.h).2 ≠ (img.h : Int)) := by
        push_neg
        exact ⟨h1, h2⟩
      simp only [nativeB.Resize, decodeRun, encodeRun, hdec, if_neg hnot]
      rfl
  · intro input img f hdec
    simp only [nativeB.GrayScale, decodeRun, encodeRun, hdec]
    rfl
  · intro base overlay op bi f oi f2 hb ho hdraw
    simp only [Watermark, decodeRun, encodeRun, hb, ho, if_pos hdraw]
    rfl
  · intro input w h pt img f hdec
    simp only [nativeA.Crop, decodeRun, encodeRun, hdec]
    rfl
  · intro input w h img f hdec
    simp only [nativeA.Resize, decodeRun, encodeRun, hdec]
    rfl
  · intro input img f hdec
    simp only [nativeA.GrayScale, decodeRun, encodeRun, hdec]
    rfl

/-- Witness for C2's amended theorem: the processor.go Crop on a concrete
decodable input records all three keys in order. -/
theorem metrics_instrumentation_witness :
    (nativeB.Crop cW [1] 2 2 processor.CropPoint.CropCenter).2
      = [decodeDurationKey, cropDurationKeyN, encodeDurationKey] :=
  (metrics_instrumentation cW).1 [1] 2 2 processor.CropPoint.CropCenter
    ⟨4, 4, fun _ _ => ⟨10, 20, 30, 255⟩, .nrgba⟩ pngType rfl

/-- Helper: the integer floor of a quotient of naturals is natural
division. -/
theorem int_floor_nat_div (a b : Nat) :
    ⌊(a : ℚ) / (b : ℚ)⌋ = ((a / b : Nat) : Int) := by
  have h0 : (0 : ℚ) ≤ (a : ℚ) / (b : ℚ) :=
    div_nonneg (Nat.cast_nonneg a) (Nat.cast_nonneg b)
  rw [← Int.natCast_floor_eq_floor h0, Nat.floor_div_eq_div]

/-- Helper: flooring a natural divided by the literal 2. -/
theorem int_floor_half (a : Nat) : ⌊(a : ℚ) / 2⌋ = ((a / 2 : Nat) : Int) := by
  have e : (a : ℚ) / 2 = (a : ℚ) / ((2 : Nat) : ℚ) := by norm_num
  rw [e, int_floor_nat_div]

/-- Helper: the floored half-width-times-ratio height that `Watermark`
computes equals a single natural division. -/
theorem int_floor_half_mul_frac (a c d : Nat) :
    ⌊(a : ℚ) / 2 * ((c : ℚ) / (d : ℚ))⌋ = ((a * c / (2 * d) : Nat) : Int) := by
  have e : (a : ℚ) / 2 * ((c : ℚ) / (d : ℚ))
      = ((a * c : Nat) : ℚ) / ((2 * d : Nat) : ℚ) := by
    push_cast
    ring
  rw [e, int_floor_nat_div]

/-- C8: on decodable base and overlay (with the overlay width positive and
the external resize returning exactly the requested dimensions, as bild's
`transform.Resize` does), `Watermark` resizes the overlay to width
`⌊base width / 2⌋` and height derived from the overlay's aspect ratio, and
composites it at the centered offsets `(baseW − overlayW)/2`,
`(baseH − overlayH)/2`. -/
theorem watermark_geometry (c : Codec) (base overlay : Bytes) (op : Nat)
    (bi oi : Img) (f f2 : String)
    (hb : c.decode base = some (bi, f))
    (ho : c.decode overlay = some (oi, f2))
    (how : 0 < oi.w)
    (hdraw : implementsDrawImage bi.kind = true)
    (hres : ∀ im a b, (c.resize im a b).w = a.toNat ∧ (c.resize im a b).h = b.toNat) :
    Watermark c base overlay op
      = (GoResult.ret
          (encodeRun c
            (c.drawComposite bi
              (c.resize oi ((bi.w / 2 : Nat) : Int)
                ((bi.w * oi.h / (2 * oi.w) : Nat) : Int))
              (Int.tdiv ((bi.w : Int) - ((bi.w / 2 : Nat) : Int)) 2)
              (Int.tdiv ((bi.h : Int) - ((bi.w * oi.h / (2 * oi.w) : Nat) : Int)) 2)
              op) f).1.1
          (encodeRun c
            (c.drawComposite bi
              (c.resize oi ((bi.w / 2 : Nat) : Int)
                ((bi.w * oi.h / (2 * oi.w) : Nat) : Int))
              (Int.tdiv ((bi.w : Int) - ((bi.w / 2 : Nat) : Int)) 2)
              (Int.tdiv ((bi.h : Int) - ((bi.w * oi.h / (2 * oi.w) : Nat) : Int)) 2)
              op) f).1.2,
        [decodeDurationKey, decodeDurationKey, watermarkDurationKey,
          encodeDurationKey]) := by
  simp only [Watermark, decodeRun, hb, ho, if_pos hdraw]
  rw [int_floor_half bi.w, int_floor_half_mul_frac bi.w oi.h oi.w]
  obtain ⟨hw2, hh2⟩ :=
    hres oi ((bi.w / 2 : Nat) : Int) ((bi.w * oi.h / (2 * oi.w) : Nat) : Int)
  rw [hw2, hh2]
  simp only [Int.toNat_natCast]
  rfl

/-- Witness for C8 at the concrete codec `cW`: base 4×4, overlay 6×4, so
the overlay is resized to 2×1 and composited at offset (1, 1). -/
theorem watermark_geometry_witness :
    Watermark cW [1] [2] 200
      = (GoResult.ret
          (encodeRun cW
            (cW.drawComposite ⟨4, 4, fun _ _ => ⟨10, 20, 30, 255⟩, .nrgba⟩
              (cW.resize ⟨6, 4, fun _ _ => ⟨10, 20, 30, 255⟩, .nrgba⟩
                ((4 / 2 : Nat) : Int) ((4 * 4 / (2 * 6) : Nat) : Int))
              (Int.tdiv ((4 : Int) - ((4 / 2 : Nat) : Int)) 2)
              (Int.tdiv ((4 : Int) - ((4 * 4 / (2 * 6) : Nat) : Int)) 2)
              200) pngType).1.1
          (encodeRun cW
            (cW.drawComposite ⟨4, 4, fun _ _ => ⟨10, 20, 30, 255⟩, .nrgba⟩
              (cW.resize ⟨6, 4, fun _ _ => ⟨10, 20, 30, 255⟩, .nrgba⟩
                ((4 / 2 : Nat) : Int) ((4 * 4 / (2 * 6) : Nat) : Int))
              (Int.tdiv ((4 : Int) - ((4 / 2 : Nat) : Int)) 2)
              (Int.tdiv ((4 : Int) - ((4 * 4 / (2 * 6) : Nat) : Int)) 2)
              200) pngType).1.2,
        [decodeDurationKey, decodeDurationKey, watermarkDurationKey,
          encodeDurationKey]) :=
  watermark_geometry cW [1] [2] 200
    ⟨4, 4, fun _ _ => ⟨10, 20, 30, 255⟩, .nrgba⟩
    ⟨6, 4, fun _ _ => ⟨10, 20, 30, 255⟩, .nrgba⟩ pngType jpgType
    rfl rfl (by decide) rfl (fun im a b => ⟨rfl, rfl⟩)

/-- Concrete external-capability instance whose base payload decodes to a
`*image.YCbCr`-typed image, as Go's `image/jpeg` decoder produces for color
JPEGs; `*image.YCbCr` has no `Set` method, so it does not implement
`draw.Image`. -/
def cJ : Codec where
  decode := fun b =>
    if b = [7] then some (⟨8, 8, fun _ _ => ⟨1, 2, 3, 255⟩, .ycbcr⟩, jpgType)
    else some (⟨2, 2, fun _ _ => ⟨1, 2, 3, 255⟩, .nrgba⟩, pngType)
  encodePNGBest := fun _ => ([80], none)
  encodeJPEGDefault := fun _ => ([74], none)
  resize := fun img w h => ⟨w.toNat, h.toNat, img.pix, img.kind⟩
  cropRegion := fun img _ _ _ _ => img
  effectGrayscale := fun img => img
  drawComposite := fun b _ _ _ _ => b
  getResizeWidthAndHeightForCrop := fun w h _ _ => (w, h)
  getResizeWidthAndHeight := fun w h _ _ => (w, h)
  getStartingPointForCrop := fun _ _ _ _ _ => (0, 0)

/-- C9: for a decodable base whose in-memory representation does not
implement `draw.Image` (here a JPEG decoded to `*image.YCbCr`), the
unchecked type assertion `baseImg.(draw.Image)` in `Watermark` panics at
runtime instead of returning an error: the call produces no `(bytes, err)`
return at all. -/
theorem watermark_unchecked_assertion_panics :
    Watermark cJ [7] [9] 128
      = (GoResult.panicked, [decodeDurationKey, decodeDurationKey]) := by
  rfl

namespace service

/-- Decimal digit to its character. -/
def digitToChar (d : Nat) : Char := Char.ofNat (48 + d)

/-- Decimal digits of `n`, least significant first. -/
def natDigitsRev (n : Nat) : List Nat :=
  if _h : n < 10 then [n] else (n % 10) :: natDigitsRev (n / 10)
decreasing_by exact Nat.div_lt_self (by omega) (by omega)

/-- Model of Go's `strconv.Itoa` on nonnegative values: the usual decimal
rendering ("str(v)" in the spec's property list). -/
def itoa (n : Nat) : String := String.mk ((natDigitsRev n).reverse.map digitToChar)

/-- Every entry of `natDigitsRev` is a digit. -/
theorem natDigitsRev_lt (n : Nat) : ∀ d ∈ natDigitsRev n, d < 10 := by
  induction n using Nat.strong_induction_on with
  | _ n ih =>
    intro d hd
    unfold natDigitsRev at hd
    split at hd
    · next h =>
      simp only [List.mem_singleton] at hd
      omega
    · next h =>
      rcases List.mem_cons.mp hd with h1 | h1
      · omega
      · exact ih (n / 10) (Nat.div_lt_self (by omega) (by omega)) d h1

/-- Helper `natDigitsRev` never returns the empty list. -/
theorem natDigitsRev_ne_nil (n : Nat) : natDigitsRev n ≠ [] := by
  unfold natDigitsRev
  split <;> simp

/-- Reading back a rendered digit. -/
theorem charToDigit_digitToChar (d : Nat) (h : d < 10) :
    charToDigit (digitToChar d) = d := by
  interval_cases d <;> rfl

/-- Rendered digits pass the digit test. -/
theorem isDigitCh_digitToChar (d : Nat) (h : d < 10) :
    isDigitCh (digitToChar d) = true := by
  interval_cases d <;> rfl

/-- Appending one digit multiplies the parsed value by 10. -/
theorem parseDigits_append (xs : List Char) (c : Char) :
    parseDigits (xs ++ [c]) = 10 * parseDigits xs + charToDigit c := by
  unfold parseDigits
  rw [List.foldl_append]
  rfl

/-- The digit scanner inverts the decimal rendering. -/
theorem parseDigits_itoa (n : Nat) :
    parseDigits ((natDigitsRev n).reverse.map digitToChar) = n := by
  induction n using Nat.strong_induction_on with
  | _ n ih =>
    unfold natDigitsRev
    split
    · next h =>
      simp only [List.reverse_singleton, List.map_cons, List.map_nil]
      show 10 * 0 + charToDigit (digitToChar n) = n
      rw [charToDigit_digitToChar n h]
      omega
    · next h =>
      rw [List.reverse_cons, List.map_append, List.map_singleton,
        parseDigits_append, ih (n / 10) (Nat.div_lt_self (by omega) (by omega)),
        charToDigit_digitToChar (n % 10) (by omega)]
      omega

/-- Every character of the rendering is a digit. -/
theorem allDigits_itoa (n : Nat) :
    allDigits ((natDigitsRev n).reverse.map digitToChar) = true := by
  simp only [allDigits, List.all_eq_true]
  intro c hc
  rw [List.mem_map] at hc
  obtain ⟨d, hd, rfl⟩ := hc
  rw [List.mem_reverse] at hd
  exact isDigitCh_digitToChar d (natDigitsRev_lt n d hd)

/-- Model `atoi` inverts `itoa` on values representable in 64 bits. -/
theorem atoi_itoa (v : Nat) (hv : v ≤ 9223372036854775807) :
    atoi (itoa v) = (v : Int) := by
  have hall : allDigits ((natDigitsRev v).reverse.map digitToChar) = true :=
    allDigits_itoa v
  have hparse : parseDigits ((natDigitsRev v).reverse.map digitToChar) = v :=
    parseDigits_itoa v
  have hne : (natDigitsRev v).reverse.map digitToChar ≠ [] := by
    simp only [ne_eq, List.map_eq_nil_iff, List.reverse_eq_nil_iff]
    exact natDigitsRev_ne_nil v
  cases hL : (natDigitsRev v).reverse.map digitToChar with
  | nil => exact absurd hL hne
  | cons c rest =>
    rw [hL] at hall hparse
    have hcdig : isDigitCh c = true := by
      rw [allDigits, List.all_eq_true] at hall
      exact hall c (List.mem_cons_self c rest)
    have hc1 : ¬(c = '-') := fun he => absurd (he ▸ hcdig) (by decide)
    have hc2 : ¬(c = '+') := fun he => absurd (he ▸ hcdig) (by decide)
    show atoi (String.mk ((natDigitsRev v).reverse.map digitToChar)) = (v : Int)
    unfold atoi
    simp only [hL]
    rw [if_neg hc1, if_neg hc2, if_pos hall, hparse]
    unfold clampInt64 maxInt64 minInt64
    rw [if_neg (by omega), if_neg (by omega)]

/-- C3 counterexample: an input whose mathematical value exceeds the 64-bit
range is not "parse failure → 0" and is not "value mod 10000 = 9999"
either: `Atoi` clamps to `MaxInt64`, and `CleanInt` returns
`MaxInt64 % 10000 = 5807`. -/
theorem cleanInt_overflow_clamps :
    CleanInt ("99999999999999999999") = 5807
    ∧ (5807 : Int) ≠ 0 ∧ (5807 : Int) ≠ 9999 := by
  refine ⟨by decide, by decide, by decide⟩

/-- C3 amended: `CleanInt` parses base-10 with Go's `Atoi`, returning 0 on
syntactic parse failure or when the (possibly range-clamped) value is ≤ 0,
and otherwise the clamped value mod 10000 — for an input above the signed
64-bit range this is `MaxInt64 % 10000 = 5807` rather than 0.  The result
is always in [0, 9999], `CleanInt(str(v)) = v` for 0 < v < 10000, and the
listed concrete cases hold. -/
theorem cleanInt_amended :
    (∀ s : String, 0 ≤ CleanInt s ∧ CleanInt s ≤ 9999)
    ∧ (∀ v : Nat, 0 < v → v < 10000 → CleanInt (itoa v) = (v : Int))
    ∧ CleanInt ("0") = 0
    ∧ CleanInt ("-3") = 0
    ∧ CleanInt ("10005") = 5
    ∧ CleanInt ("abc") = 0
    ∧ CleanInt ("99999999999999999999") = 5807 := by
  refine ⟨?_, ?_, by decide, by decide, by decide, by decide, by decide⟩
  · intro s
    unfold CleanInt
    by_cases h : atoi s ≤ 0
    · rw [if_pos h]
      omega
    · rw [if_neg h]
      have h1 : 0 ≤ atoi s % 10000 := Int.emod_nonneg _ (by norm_num)
      have h2 : atoi s % 10000 < 10000 := Int.emod_lt_of_pos _ (by norm_num)
      omega
  · intro v hv0 hv1
    unfold CleanInt
    rw [atoi_itoa v (by omega)]
    rw [if_neg (by omega)]
    rw [Int.emod_eq_of_lt (by omega) (by omega)]

/-- Witness for C3's amended theorem: the round trip at 1234. -/
theorem cleanInt_amended_witness :
    CleanInt (itoa 1234) = (1234 : Int) :=
  cleanInt_amended.2.1 1234 (by norm_num) (by norm_num)

end service
